import Mathlib

/-!
Verification of the HypnoS persistent move-learning store ("Experience").

The definitions below are a shallow embedding of the C++ source:
`experience.h` (record formats V1/V2, `merge`, `compare`, the chained
`ExpEntryEx` lookup), `engine.cpp` (`Engine::set_position`'s move replay and
its learning-store gating) and `learn.h` / `evaluate.cpp`.

Machine-integer conventions: `Key` and `Move` are modelled as `Nat`
(`uint64_t` / move encoding); `Value` and `Depth` are `Int` (C++ `int`);
the V2 `count` field (`uint16_t`) is a `Nat`.  C++ `/` on `int` rounds
toward zero, which is `Int.tdiv` in Lean; `std::min`/`std::max` are
`min`/`max`.
-/

namespace Experience

/-- Position key, a 64-bit hash (`Key` in the source). -/
abbrev Key := Nat

/-- Encoded move (`Move` in the source). -/
abbrev Move := Nat

namespace V1

/-- V1 on-disk record (`Experience::V1::ExpEntry`): key, move, value, depth,
plus 4 bytes of fixed sentinel padding (irrelevant to the semantics). -/
structure ExpEntry where
  key   : Key
  move  : Move
  value : Int
  depth : Int
deriving Repr, DecidableEq

/-- `V1::ExpEntry::merge` (this-entry `a` merges incoming `exp = b`):
if `depth > exp->depth` nothing changes; if equal, `value = (value + exp->value) / 2`
(C++ `int` division, toward zero); else the incoming (deeper) side wins. -/
def ExpEntry.merge (a b : ExpEntry) : ExpEntry :=
  if a.depth > b.depth then a
  else if a.depth = b.depth then
    { a with value := Int.tdiv (a.value + b.value) 2 }
  else
    { a with value := b.value, depth := b.depth }

/-- `V1::ExpEntry::compare`:
`v = value * max(depth / 5, 1) - exp->value * max(exp->depth / 5, 1)`;
if `v` is zero fall back to `depth - exp->depth`. -/
def ExpEntry.compare (a b : ExpEntry) : Int :=
  let v := a.value * max (Int.tdiv a.depth 5) 1 - b.value * max (Int.tdiv b.depth 5) 1
  if v ≠ 0 then v else a.depth - b.depth

end V1

namespace V2

/-- Saturation bound of the V2 `count` field (`uint16_t` maximum). -/
def COUNT_MAX : Nat := 65535

/-- V2 on-disk record (`Experience::V2::ExpEntry`): as V1 but two padding
bytes are traded for the 16-bit observation counter `count`. -/
structure ExpEntry where
  key   : Key
  move  : Move
  value : Int
  depth : Int
  count : Nat
deriving Repr, DecidableEq

/-- `V2::ExpEntry::merge` (this-entry `a` merges incoming `exp = b`):
first the counts are added with saturation at `uint16_t` max (the additions are
performed in `uint32_t`, so no wrap-around occurs before the `min`); then value
and depth are merged exactly as in V1. -/
def ExpEntry.merge (a b : ExpEntry) : ExpEntry :=
  let newCount := min (a.count + b.count) COUNT_MAX
  if a.depth > b.depth then { a with count := newCount }
  else if a.depth = b.depth then
    { a with count := newCount, value := Int.tdiv (a.value + b.value) 2 }
  else
    { a with count := newCount, value := b.value, depth := b.depth }

/-- `V2::ExpEntry::compare`:
`v = value * max(depth / 10, 1) * max(count / 3, 1) - (same for exp)`;
if `v` is nonzero return it, else fall back to `count - exp->count`,
else to `depth - exp->depth`.  (`count` is `uint16_t`, promoted to `int`
before the subtraction, hence the casts to `Int`.) -/
def ExpEntry.compare (a b : ExpEntry) : Int :=
  let v := a.value * max (Int.tdiv a.depth 10) 1 * max (Int.tdiv (a.count : Int) 3) 1
         - b.value * max (Int.tdiv b.depth 10) 1 * max (Int.tdiv (b.count : Int) 3) 1
  if v ≠ 0 then v
  else
    let v2 := (a.count : Int) - (b.count : Int)
    if v2 ≠ 0 then v2 else a.depth - b.depth

end V2

/-- The in-memory extended record `ExpEntryEx` derives from `Current = V2`.
Its chain (`next` pointers) is modelled as a `List`, with the entry itself as
the head; here we keep just the payload entry. The constructor
`ExpEntryEx(Key, Move, Value, Depth, uint8_t c)` declares its count parameter
as `uint8_t`, so a caller's argument is narrowed modulo 256 before being
stored into the 16-bit `count` field. -/
def mkExpEntryEx (k : Key) (m : Move) (v : Int) (d : Int) (c : Nat) : V2.ExpEntry :=
  { key := k, move := m, value := v, depth := d, count := c % 256 }

/-- `ExpEntryEx::find(Move)` : walk the chain from this entry, return the first
entry whose move matches, or null. Chain modelled as the list of entries
reachable through `next` (head = `this`). -/
def findMove (mv : Move) : List V2.ExpEntry → Option V2.ExpEntry
  | [] => none
  | e :: rest => if e.move = mv then some e else findMove mv rest

/-- `ExpEntryEx::find(Move, Depth minDepth)` : walk the chain; when the move
matches, a found entry with `depth < minDepth` is turned into null
(`temp = nullptr`) and the walk breaks either way. -/
def findMoveMinDepth (mv : Move) (minDepth : Int) : List V2.ExpEntry → Option V2.ExpEntry
  | [] => none
  | e :: rest =>
    if e.move = mv then
      if e.depth < minDepth then none else some e
    else findMoveMinDepth mv minDepth rest

end Experience

namespace Learn

open Experience (Key Move)

/-- `LearningMode` from `learn.h`: `Off = 1, Standard = 2, Self = 3`. -/
inductive LearningMode
  | Off
  | Standard
  | Self
deriving Repr, DecidableEq

/-- `VALUE_NONE` from the engine's `types.h` (the standard value `32002`);
for the claims below only its identity matters, not its numeric value. -/
def VALUE_NONE : Int := 32002

/-- `LearningMove` from `learn.h`. -/
structure LearningMove where
  depth       : Int
  score       : Int
  move        : Move
  performance : Int
deriving Repr, DecidableEq

/-- `PersistedLearningMove` from `learn.h`: a key together with a move record. -/
structure PersistedLearningMove where
  key          : Key
  learningMove : LearningMove
deriving Repr, DecidableEq

/-- `LearningData` from `learn.h`: pause/readonly flags, the mode, and the
`unordered_multimap<Key, LearningMove*> HT` modelled as an association list. -/
structure LearningData where
  isPaused     : Bool
  isReadOnly   : Bool
  learningMode : LearningMode
  store        : List (Key × LearningMove)
deriving Repr, DecidableEq

/-- `LearningData::is_enabled()`: `learningMode != LearningMode::Off`. -/
def LearningData.is_enabled (ld : LearningData) : Bool :=
  ld.learningMode != LearningMode.Off

/-- Modelled from the spec: the body of `LearningData::insert_or_update` is in
`learn.cpp`, which is not part of the excerpt; per spec §4.2/§4.3 a duplicate
`(key, move)` is merged (deeper observation wins, equal depth averages the
score), which fixes the merged record's `move` field — the only fact the
theorems below rely on. -/
def mergeLearningMove (existing incoming : LearningMove) : LearningMove :=
  if existing.depth > incoming.depth then existing
  else if existing.depth = incoming.depth then
    { existing with score := Int.tdiv (existing.score + incoming.score) 2 }
  else incoming

/-- Modelled from the spec: `insert_or_update` scans the candidate list for an
existing `(key, move)`; if found, merges into it in place; else appends a new
record (spec §4.3). -/
def insertOrUpdate (k : Key) (lm : LearningMove) :
    List (Key × LearningMove) → List (Key × LearningMove)
  | [] => [(k, lm)]
  | p :: rest =>
    if p.1 = k ∧ p.2.move = lm.move then (p.1, mergeLearningMove p.2 lm) :: rest
    else p :: insertOrUpdate k lm rest

/-- Modelled from the spec: the body of `LearningData::add_new_learning` is in
`learn.cpp`, which is not part of the excerpt; per spec §4.4, writes are
suppressed entirely (silent no-op) when the mode is `Off`, when `paused` is
true, or when `readonly` is true — three independent gates that must all pass
before `insert_or_update` runs. -/
def LearningData.add_new_learning (ld : LearningData) (k : Key) (lm : LearningMove) :
    LearningData :=
  if ld.is_enabled && !ld.isPaused && !ld.isReadOnly then
    { ld with store := insertOrUpdate k lm ld.store }
  else ld

/-- `LearningData::probe_move(Key, Move)`: look up the record for `(k, m)`, or
null when absent. -/
def LearningData.probe_move (ld : LearningData) (k : Key) (m : Move) : Option LearningMove :=
  (ld.store.find? fun p => p.1 == k && p.2.move == m).map (·.2)

end Learn

namespace Engine

open Experience (Key Move)
open Learn

/-- The position/decoding services `Engine::set_position` consumes:
`UCIEngine::to_move` (null move on failure, modelled as `Option`),
`Position::key` and `Position::do_move`, over an abstract position state `σ`. -/
structure PosModel (σ : Type) where
  decode : σ → String → Option Move
  key    : σ → Key
  doMove : σ → Move → σ

/-- The move-replay loop of `Engine::set_position`: for each move string, decode
it (`break` on failure); if `LD.is_enabled() && LD.learning_mode() != Self &&
!LD.is_paused()`, build a `PersistedLearningMove` with the key of the position
*before* the move, `depth = 0`, `score = VALUE_NONE`, `performance = 100`, and
pass it to `LD.add_new_learning`; then play the move.  Returns the final
learning state, the final position, and the list of `(key, LearningMove)`
arguments passed to `add_new_learning`, in order. -/
def setPositionReplay {σ : Type} (P : PosModel σ) :
    LearningData → σ → List String → LearningData × σ × List (Key × LearningMove)
  | ld, s, [] => (ld, s, [])
  | ld, s, mvStr :: rest =>
    match P.decode s mvStr with
    | none => (ld, s, [])
    | some m =>
      if ld.is_enabled && ld.learningMode != LearningMode.Self && !ld.isPaused then
        let plm : LearningMove :=
          { depth := 0, score := VALUE_NONE, move := m, performance := 100 }
        let r := setPositionReplay P (ld.add_new_learning (P.key s) plm) (P.doMove s m) rest
        (r.1, r.2.1, (P.key s, plm) :: r.2.2)
      else
        setPositionReplay P ld (P.doMove s m) rest

/-- The maximal successfully-decoded prefix of a move-string list, folding the
position forward — the moves `set_position` actually replays. -/
def decodedMoves {σ : Type} (P : PosModel σ) : σ → List String → List Move
  | _, [] => []
  | s, mvStr :: rest =>
    match P.decode s mvStr with
    | none => []
    | some m => m :: decodedMoves P (P.doMove s m) rest

end Engine

namespace Eval

/-- `VALUE_TB_WIN_IN_MAX_PLY` from the engine's `types.h` (not in the excerpt;
this is the standard value `VALUE_MATE - 2 * MAX_PLY - 1 = 31507`).  The clamp
bound below holds for any pair of constants in the right order. -/
def VALUE_TB_WIN_IN_MAX_PLY : Int := 31507

/-- `VALUE_TB_LOSS_IN_MAX_PLY = -VALUE_TB_WIN_IN_MAX_PLY` from `types.h`. -/
def VALUE_TB_LOSS_IN_MAX_PLY : Int := -VALUE_TB_WIN_IN_MAX_PLY

/-- `std::clamp(v, lo, hi)`. -/
def clamp (v lo hi : Int) : Int :=
  if v < lo then lo else if hi < v then hi else v

/-- `Eval::evaluate` from `evaluate.cpp`, for a position not in check.  The
external collaborators are parameters: `smallNet` (`|simpleEval| >
SmallNetThreshold`, threshold from `evaluate.h`), the NNUE output `nnue0` with
its complexity, the thread's `optimism`, `npMaterial = pos.non_pawn_material()`,
`pawnCount = pos.count<PAWN>()` and `rule50 = pos.rule50_count()`.  All `/` on
`int` are toward-zero divisions.  `psqtOnly` only selects which NNUE network
runs, so it does not appear. -/
def evaluate (smallNet : Bool) (simpleEval nnue0 optimism0 nnueComplexity
    npMaterial pawnCount rule50 : Int) : Int :=
  let optDiv : Int := if smallNet then 517 else 499
  let nnueDiv : Int := if smallNet then 32857 else 32793
  let pawnCountConstant : Int := if smallNet then 908 else 903
  let pawnCountMul : Int := if smallNet then 7 else 9
  let npmConstant : Int := if smallNet then 155 else 147
  let evalDiv : Int := if smallNet then 1019 else 1067
  let shufflingConstant : Int := if smallNet then 224 else 208
  let shufflingDiv : Int := if smallNet then 238 else 211
  let absDiff := |simpleEval - nnue0|
  let optimism := optimism0 + Int.tdiv (optimism0 * (nnueComplexity + absDiff)) optDiv
  let nnue := nnue0 - Int.tdiv (nnue0 * (nnueComplexity + absDiff)) nnueDiv
  let npm := Int.tdiv npMaterial 64
  let v0 := Int.tdiv (nnue * (npm + pawnCountConstant + pawnCountMul * pawnCount)
                      + optimism * (npmConstant + npm)) evalDiv
  let v1 := Int.tdiv (v0 * (shufflingConstant - rule50)) shufflingDiv
  clamp v1 (VALUE_TB_LOSS_IN_MAX_PLY + 1) (VALUE_TB_WIN_IN_MAX_PLY - 1)

end Eval

/-- Claim C4's reading of the V2 compare, written from its wording: the primary
score `a.value * max(a.depth/10, 1) * max(a.count/3, 1)` minus the equivalent
for `b` whenever that difference is nonzero; if it is zero, `a.count - b.count`
if nonzero, and otherwise `a.depth - b.depth`.  (Spec-side definition, to be
compared with the source-side `Experience.V2.ExpEntry.compare`.) -/
def compareSpecV2 (a b : Experience.V2.ExpEntry) : Int :=
  if a.value * max (Int.tdiv a.depth 10) 1 * max (Int.tdiv (a.count : Int) 3) 1
     - b.value * max (Int.tdiv b.depth 10) 1 * max (Int.tdiv (b.count : Int) 3) 1 ≠ 0 then
    a.value * max (Int.tdiv a.depth 10) 1 * max (Int.tdiv (a.count : Int) 3) 1
     - b.value * max (Int.tdiv b.depth 10) 1 * max (Int.tdiv (b.count : Int) 3) 1
  else if (a.count : Int) - (b.count : Int) ≠ 0 then (a.count : Int) - (b.count : Int)
  else a.depth - b.depth

/-- A concrete instantiation of the position services, used to exercise the
replay loop on closed inputs: positions are numbered `0, 1, 2, …`, the key of a
position is its number, the string `"a"` decodes to move `3` and anything else
fails to decode. -/
def replayDemoModel : Engine.PosModel Nat :=
  { decode := fun _ str => if str = "a" then some 3 else none
    key := fun s => s
    doMove := fun s _ => s + 1 }

section Helpers

/-- Antisymmetry of a two-stage difference comparison. -/
theorem cmp2_antisym (A B E F : Int) :
    (if A - B ≠ 0 then A - B else E - F)
      = -(if B - A ≠ 0 then B - A else F - E) := by
  split_ifs <;> omega

/-- Antisymmetry of a three-stage difference comparison. -/
theorem cmp3_antisym (A B C D E F : Int) :
    (if A - B ≠ 0 then A - B else if C - D ≠ 0 then C - D else E - F)
      = -(if B - A ≠ 0 then B - A else if D - C ≠ 0 then D - C else F - E) := by
  split_ifs <;> omega

/-- Toward-zero division by 10 of anything below 10 is at most 0, so the
`max(_, 1)` floor yields 1. -/
theorem tdiv_ten_floor (d : Int) (h : d < 10) : max (Int.tdiv d 10) 1 = 1 := by
  cases d with
  | ofNat m =>
    change max (Int.ofNat (m / 10)) 1 = 1
    rw [Int.ofNat_eq_coe] at h ⊢
    omega
  | negSucc m =>
    change max (-Int.ofNat ((m + 1) / 10)) 1 = 1
    rw [Int.ofNat_eq_coe]
    omega

/-- Toward-zero division by 3 of a natural number below 3 is 0, so the
`max(_, 1)` floor yields 1. -/
theorem tdiv_three_floor (c : Nat) (h : c < 3) : max (Int.tdiv (c : Int) 3) 1 = 1 := by
  change max (Int.ofNat (c / 3)) 1 = 1
  rw [Int.ofNat_eq_coe]
  omega

/-- `std::clamp` keeps its result between the two bounds whenever they are
ordered. -/
theorem clamp_bounds (v lo hi : Int) (h : lo ≤ hi) :
    lo ≤ Eval.clamp v lo hi ∧ Eval.clamp v lo hi ≤ hi := by
  unfold Eval.clamp
  split_ifs <;> omega

end Helpers

section LearnHelpers

open Learn Engine Experience

/-- `add_new_learning` never changes the mode or the flags, only the store. -/
theorem add_new_learning_mode (ld : LearningData) (k : Key) (lm : LearningMove) :
    (ld.add_new_learning k lm).learningMode = ld.learningMode := by
  unfold LearningData.add_new_learning
  split <;> rfl

/-- `add_new_learning` never changes the paused flag. -/
theorem add_new_learning_paused (ld : LearningData) (k : Key) (lm : LearningMove) :
    (ld.add_new_learning k lm).isPaused = ld.isPaused := by
  unfold LearningData.add_new_learning
  split <;> rfl

/-- A readonly store swallows `add_new_learning` whole. -/
theorem add_new_learning_readonly (ld : LearningData) (k : Key) (lm : LearningMove)
    (h : ld.isReadOnly = true) : ld.add_new_learning k lm = ld := by
  unfold LearningData.add_new_learning
  simp [h]

/-- Merging into an existing record with the same move keeps that move. -/
theorem mergeLearningMove_move (x y : LearningMove) (h : x.move = y.move) :
    (mergeLearningMove x y).move = y.move := by
  unfold mergeLearningMove
  split_ifs <;> simp [h]

/-- After `insertOrUpdate k lm`, a lookup for `(k, lm.move)` finds a record
carrying `lm.move`. -/
theorem insertOrUpdate_found (k : Key) (lm : LearningMove)
    (l : List (Key × LearningMove)) :
    ∃ lm', ((insertOrUpdate k lm l).find? fun p => p.1 == k && p.2.move == lm.move).map
        Prod.snd = some lm' ∧ lm'.move = lm.move := by
  induction l with
  | nil =>
    exact ⟨lm, by simp [insertOrUpdate], rfl⟩
  | cons p rest ih =>
    by_cases hp : p.1 = k ∧ p.2.move = lm.move
    · refine ⟨mergeLearningMove p.2 lm, ?_, mergeLearningMove_move p.2 lm hp.2⟩
      have hpred : (fun q : Key × LearningMove => q.1 == k && q.2.move == lm.move)
          (p.1, mergeLearningMove p.2 lm) = true := by
        simp [hp.1, mergeLearningMove_move p.2 lm hp.2]
      simp only [insertOrUpdate, if_pos hp]
      rw [List.find?_cons_of_pos rest hpred]
      rfl
    · obtain ⟨lm', h1, h2⟩ := ih
      refine ⟨lm', ?_, h2⟩
      have hpred : ¬ ((fun q : Key × LearningMove => q.1 == k && q.2.move == lm.move) p
          = true) := by
        intro hcon
        simp only [Bool.and_eq_true, beq_iff_eq] at hcon
        exact hp hcon
      simp only [insertOrUpdate, if_neg hp]
      rw [List.find?_cons_of_neg (insertOrUpdate k lm rest) hpred]
      exact h1

/-- While the store is readonly, the whole `set_position` replay leaves the
learning state untouched. -/
theorem replay_readonly {σ : Type} (P : PosModel σ) (ld : LearningData) (s : σ)
    (moves : List String) (h : ld.isReadOnly = true) :
    (setPositionReplay P ld s moves).1 = ld := by
  induction moves generalizing ld s with
  | nil => rfl
  | cons mv rest ih =>
    cases hd : P.decode s mv with
    | none => simp [setPositionReplay, hd]
    | some m =>
      cases hg : (ld.is_enabled && ld.learningMode != LearningMode.Self && !ld.isPaused) with
      | false =>
        simp only [setPositionReplay, hd, hg, Bool.false_eq_true, if_false]
        exact ih ld (P.doMove s m) h
      | true =>
        simp only [setPositionReplay, hd, hg, if_true]
        rw [add_new_learning_readonly _ _ _ h]
        exact ih ld (P.doMove s m) h

/-- In `Self` mode the replay loop never calls `add_new_learning`. -/
theorem replay_self {σ : Type} (P : PosModel σ) (ld : LearningData) (s : σ)
    (moves : List String) (h : ld.learningMode = LearningMode.Self) :
    (setPositionReplay P ld s moves).2.2 = [] := by
  induction moves generalizing ld s with
  | nil => rfl
  | cons mv rest ih =>
    cases hd : P.decode s mv with
    | none => simp [setPositionReplay, hd]
    | some m =>
      have hg : (ld.is_enabled && ld.learningMode != LearningMode.Self && !ld.isPaused)
          = false := by
        simp [h]
      simp only [setPositionReplay, hd, hg, Bool.false_eq_true, if_false]
      exact ih ld (P.doMove s m) h

/-- In `Standard` mode with learning not paused, the replay loop records
exactly the successfully decoded moves, in order. -/
theorem replay_standard {σ : Type} (P : PosModel σ) (ld : LearningData) (s : σ)
    (moves : List String) (hm : ld.learningMode = LearningMode.Standard)
    (hp : ld.isPaused = false) :
    ((setPositionReplay P ld s moves).2.2).map (fun c => c.2.move)
      = decodedMoves P s moves := by
  induction moves generalizing ld s with
  | nil => rfl
  | cons mv rest ih =>
    cases hd : P.decode s mv with
    | none => simp [setPositionReplay, decodedMoves, hd]
    | some m =>
      have hg : (ld.is_enabled && ld.learningMode != LearningMode.Self && !ld.isPaused)
          = true := by
        simp [LearningData.is_enabled, hm, hp]
      simp only [setPositionReplay, decodedMoves, hd, hg, if_true, List.map_cons]
      refine congrArg (m :: ·) ?_
      exact ih _ (P.doMove s m)
        (by rw [add_new_learning_mode]; exact hm)
        (by rw [add_new_learning_paused]; exact hp)

/-- Every `(key, LearningMove)` pair the replay loop passes to
`add_new_learning` carries `depth = 0`, `score = VALUE_NONE` and
`performance = 100`. -/
theorem replay_fields {σ : Type} (P : PosModel σ) (ld : LearningData) (s : σ)
    (moves : List String) :
    ∀ c ∈ (setPositionReplay P ld s moves).2.2,
      c.2.depth = 0 ∧ c.2.score = VALUE_NONE ∧ c.2.performance = 100 := by
  induction moves generalizing ld s with
  | nil => intro c hc; simp [setPositionReplay] at hc
  | cons mv rest ih =>
    intro c hc
    cases hd : P.decode s mv with
    | none => simp [setPositionReplay, hd] at hc
    | some m =>
      cases hg : (ld.is_enabled && ld.learningMode != LearningMode.Self && !ld.isPaused) with
      | false =>
        simp only [setPositionReplay, hd, hg, Bool.false_eq_true, if_false] at hc
        exact ih _ (P.doMove s m) c hc
      | true =>
        simp only [setPositionReplay, hd, hg, if_true, List.mem_cons] at hc
        rcases hc with hc | hc
        · subst hc; exact ⟨rfl, rfl, rfl⟩
        · exact ih _ (P.doMove s m) c hc

end LearnHelpers

/-- C1: for all V2 records `a` and `b` with equal key and equal move,
`merge(a, b)` yields `count' = min(a.count + b.count, 65535)` (saturating add,
applied before and regardless of the depth comparison),
`depth' = max(a.depth, b.depth)`, and `value' = a.value` if `a.depth > b.depth`,
`value' = (a.value + b.value) / 2` with toward-zero integer division if
`a.depth == b.depth`, and `value' = b.value` if `b.depth > a.depth`. -/
theorem claim_C1_merge_v2 :
    ∀ a b : Experience.V2.ExpEntry, a.key = b.key → a.move = b.move →
      (a.merge b).count = min (a.count + b.count) 65535
    ∧ (a.merge b).depth = max a.depth b.depth
    ∧ (a.depth > b.depth → (a.merge b).value = a.value)
    ∧ (a.depth = b.depth → (a.merge b).value = Int.tdiv (a.value + b.value) 2)
    ∧ (b.depth > a.depth → (a.merge b).value = b.value) := by
  intro a b _ _
  simp only [Experience.V2.ExpEntry.merge, Experience.V2.COUNT_MAX]
  split_ifs with h1 h2
  · exact ⟨rfl, by simp; omega, fun _ => rfl,
      fun h => absurd h (by omega), fun h => absurd h (by omega)⟩
  · exact ⟨rfl, by simp; omega, fun h => absurd h (by omega),
      fun _ => rfl, fun h => absurd h (by omega)⟩
  · exact ⟨rfl, by simp; omega, fun h => absurd h (by omega),
      fun h => absurd h (by omega), fun _ => rfl⟩

/-- Witness for C1 at a concrete equal-depth pair. -/
theorem claim_C1_merge_v2_witness :
    (Experience.V2.ExpEntry.merge ⟨1, 2, 50, 10, 3⟩ ⟨1, 2, 70, 10, 4⟩).count
        = min (3 + 4) 65535
    ∧ (Experience.V2.ExpEntry.merge ⟨1, 2, 50, 10, 3⟩ ⟨1, 2, 70, 10, 4⟩).depth
        = max 10 10
    ∧ ((10 : Int) > 10 →
        (Experience.V2.ExpEntry.merge ⟨1, 2, 50, 10, 3⟩ ⟨1, 2, 70, 10, 4⟩).value = 50)
    ∧ ((10 : Int) = 10 →
        (Experience.V2.ExpEntry.merge ⟨1, 2, 50, 10, 3⟩ ⟨1, 2, 70, 10, 4⟩).value
          = Int.tdiv (50 + 70) 2)
    ∧ ((10 : Int) > 10 →
        (Experience.V2.ExpEntry.merge ⟨1, 2, 50, 10, 3⟩ ⟨1, 2, 70, 10, 4⟩).value = 70) :=
  claim_C1_merge_v2 ⟨1, 2, 50, 10, 3⟩ ⟨1, 2, 70, 10, 4⟩ rfl rfl

/-- C3: for every pair of records of the same format version,
`compare(a, b) = -compare(b, a)`, both for the V2 compare (including the count
and depth tie-break stages) and for the V1 compare. -/
theorem claim_C3_compare_antisym :
    (∀ a b : Experience.V2.ExpEntry, a.compare b = - b.compare a)
  ∧ (∀ a b : Experience.V1.ExpEntry, a.compare b = - b.compare a) := by
  constructor
  · intro a b
    simp only [Experience.V2.ExpEntry.compare]
    exact cmp3_antisym _ _ _ _ _ _
  · intro a b
    simp only [Experience.V1.ExpEntry.compare]
    exact cmp2_antisym _ _ _ _

/-- C4: the V2 compare returns the primary weighted-score difference whenever
it is nonzero, else the count difference if nonzero, else the depth
difference; and when `depth < 10` or `count < 3` the corresponding multiplier
is floored at 1. -/
theorem claim_C4_compare_v2_semantics :
    (∀ a b : Experience.V2.ExpEntry, a.compare b = compareSpecV2 a b)
  ∧ (∀ a : Experience.V2.ExpEntry, a.depth < 10 → max (Int.tdiv a.depth 10) 1 = 1)
  ∧ (∀ a : Experience.V2.ExpEntry, a.count < 3 → max (Int.tdiv (a.count : Int) 3) 1 = 1) :=
  ⟨fun _ _ => rfl,
   fun a h => tdiv_ten_floor a.depth h,
   fun a h => tdiv_three_floor a.count h⟩

/-- Witness for C4 at concrete records with small depth and count. -/
theorem claim_C4_compare_v2_semantics_witness :
    (Experience.V2.ExpEntry.compare ⟨1, 2, 50, 10, 3⟩ ⟨1, 2, 70, 12, 4⟩
        = compareSpecV2 ⟨1, 2, 50, 10, 3⟩ ⟨1, 2, 70, 12, 4⟩)
    ∧ max (Int.tdiv (5 : Int) 10) 1 = 1
    ∧ max (Int.tdiv ((2 : Nat) : Int) 3) 1 = 1 :=
  ⟨claim_C4_compare_v2_semantics.1 ⟨1, 2, 50, 10, 3⟩ ⟨1, 2, 70, 12, 4⟩,
   claim_C4_compare_v2_semantics.2.1 ⟨1, 2, 50, 5, 3⟩ (by decide),
   claim_C4_compare_v2_semantics.2.2 ⟨1, 2, 50, 5, 2⟩ (by decide)⟩

/-- C5: the chained lookup with a minimum depth returns null when no record in
the chain has the requested move, returns null when the first record found
with that move has `depth < minDepth`, and returns exactly that record when
its depth is at least `minDepth`. -/
theorem claim_C5_find_min_depth :
    ∀ (chain : List Experience.V2.ExpEntry) (mv : Experience.Move) (minD : Int),
      ((∀ e ∈ chain, e.move ≠ mv) → Experience.findMoveMinDepth mv minD chain = none)
    ∧ (∀ e, Experience.findMove mv chain = some e → e.depth < minD →
        Experience.findMoveMinDepth mv minD chain = none)
    ∧ (∀ e, Experience.findMove mv chain = some e → minD ≤ e.depth →
        Experience.findMoveMinDepth mv minD chain = some e) := by
  intro chain mv minD
  induction chain with
  | nil =>
    exact ⟨fun _ => rfl,
      fun e h => by simp [Experience.findMove] at h,
      fun e h => by simp [Experience.findMove] at h⟩
  | cons x xs ih =>
    by_cases hx : x.move = mv
    · refine ⟨fun hall => absurd hx (hall x (List.mem_cons_self x xs)), ?_, ?_⟩
      · intro e he hd
        simp only [Experience.findMove, if_pos hx] at he
        cases he
        simp [Experience.findMoveMinDepth, hx, hd]
      · intro e he hd
        simp only [Experience.findMove, if_pos hx] at he
        cases he
        simp [Experience.findMoveMinDepth, hx, not_lt.2 hd]
    · refine ⟨?_, ?_, ?_⟩
      · intro hall
        simp only [Experience.findMoveMinDepth, if_neg hx]
        exact ih.1 fun e he => hall e (List.mem_cons_of_mem x he)
      · intro e he hd
        simp only [Experience.findMove, if_neg hx] at he
        simp only [Experience.findMoveMinDepth, if_neg hx]
        exact ih.2.1 e he hd
      · intro e he hd
        simp only [Experience.findMove, if_neg hx] at he
        simp only [Experience.findMoveMinDepth, if_neg hx]
        exact ih.2.2 e he hd

/-- Witness for C5: a one-record chain probed with a wrong move, with an
insufficient depth floor, and with a satisfied depth floor. -/
theorem claim_C5_find_min_depth_witness :
    Experience.findMoveMinDepth 4 5 [⟨1, 2, 50, 3, 1⟩] = none
  ∧ Experience.findMoveMinDepth 2 5 [⟨1, 2, 50, 3, 1⟩] = none
  ∧ Experience.findMoveMinDepth 2 2 [⟨1, 2, 50, 3, 1⟩] = some ⟨1, 2, 50, 3, 1⟩ :=
  ⟨(claim_C5_find_min_depth [⟨1, 2, 50, 3, 1⟩] 4 5).1 (by decide),
   (claim_C5_find_min_depth [⟨1, 2, 50, 3, 1⟩] 2 5).2.1 ⟨1, 2, 50, 3, 1⟩ rfl (by decide),
   (claim_C5_find_min_depth [⟨1, 2, 50, 3, 1⟩] 2 2).2.2 ⟨1, 2, 50, 3, 1⟩ rfl (by decide)⟩

/-- C7: for V2 records with equal key and move and strictly different depths,
the merge is order-insensitive: both merge directions produce the same
`(value, depth, count)` triple. -/
theorem claim_C7_merge_comm_strict_depth :
    ∀ a b : Experience.V2.ExpEntry, a.key = b.key → a.move = b.move →
      a.depth ≠ b.depth →
      ((a.merge b).value, (a.merge b).depth, (a.merge b).count)
        = ((b.merge a).value, (b.merge a).depth, (b.merge a).count) := by
  intro a b _ _ hne
  simp only [Experience.V2.ExpEntry.merge]
  split_ifs <;> simp [Nat.add_comm] <;> omega

/-- Witness for C7 at a concrete strictly-deeper pair. -/
theorem claim_C7_merge_comm_strict_depth_witness :
    ((Experience.V2.ExpEntry.merge ⟨1, 2, 50, 8, 3⟩ ⟨1, 2, 70, 12, 4⟩).value,
     (Experience.V2.ExpEntry.merge ⟨1, 2, 50, 8, 3⟩ ⟨1, 2, 70, 12, 4⟩).depth,
     (Experience.V2.ExpEntry.merge ⟨1, 2, 50, 8, 3⟩ ⟨1, 2, 70, 12, 4⟩).count)
      = ((Experience.V2.ExpEntry.merge ⟨1, 2, 70, 12, 4⟩ ⟨1, 2, 50, 8, 3⟩).value,
         (Experience.V2.ExpEntry.merge ⟨1, 2, 70, 12, 4⟩ ⟨1, 2, 50, 8, 3⟩).depth,
         (Experience.V2.ExpEntry.merge ⟨1, 2, 70, 12, 4⟩ ⟨1, 2, 50, 8, 3⟩).count) :=
  claim_C7_merge_comm_strict_depth ⟨1, 2, 50, 8, 3⟩ ⟨1, 2, 70, 12, 4⟩ rfl rfl (by decide)

/-- C8: the extended record constructor takes its count argument through a
`uint8_t` parameter, so the stored 16-bit count equals the argument modulo 256
and can never start above 255. -/
theorem claim_C8_ctor_count_mod_256 :
    ∀ (k : Experience.Key) (m : Experience.Move) (v d : Int) (c : Nat),
      (Experience.mkExpEntryEx k m v d c).count = c % 256
    ∧ (Experience.mkExpEntryEx k m v d c).count < 256 :=
  fun _ _ _ _ c => ⟨rfl, Nat.mod_lt c (by decide)⟩

/-- C10: for every position that is not in check, `Eval::evaluate` returns a
value clamped into `[VALUE_TB_LOSS_IN_MAX_PLY + 1, VALUE_TB_WIN_IN_MAX_PLY - 1]`,
whatever the NNUE output, optimism, material, pawn count and rule-50 counter
are. -/
theorem claim_C10_evaluate_tb_range :
    ∀ (smallNet : Bool)
      (simpleEval nnue0 optimism0 nnueComplexity npMaterial pawnCount rule50 : Int),
      Eval.VALUE_TB_LOSS_IN_MAX_PLY + 1
          ≤ Eval.evaluate smallNet simpleEval nnue0 optimism0 nnueComplexity
              npMaterial pawnCount rule50
    ∧ Eval.evaluate smallNet simpleEval nnue0 optimism0 nnueComplexity
          npMaterial pawnCount rule50
        ≤ Eval.VALUE_TB_WIN_IN_MAX_PLY - 1 := by
  intro smallNet simpleEval nnue0 optimism0 nnueComplexity npMaterial pawnCount rule50
  simp only [Eval.evaluate]
  exact clamp_bounds _ _ _ (by decide)

/-- C2: a write to the learning store takes effect only when the mode is not
`Off`, the paused flag is false, and the readonly flag is false — three
independent gates that must all pass; when any gate fails the store is
unchanged (silent no-op), and in particular a move replayed through
`Engine::set_position` is never inserted while the store is readonly. -/
theorem claim_C2_write_gates :
    ∀ (ld : Learn.LearningData) (k : Experience.Key) (lm : Learn.LearningMove),
      ((ld.learningMode = Learn.LearningMode.Off ∨ ld.isPaused = true ∨ ld.isReadOnly = true) →
        ld.add_new_learning k lm = ld)
    ∧ (ld.learningMode ≠ Learn.LearningMode.Off → ld.isPaused = false →
        ld.isReadOnly = false →
        ∃ lm', (ld.add_new_learning k lm).probe_move k lm.move = some lm'
          ∧ lm'.move = lm.move)
    ∧ (∀ (σ : Type) (P : Engine.PosModel σ) (s : σ) (moves : List String),
        ld.isReadOnly = true → (Engine.setPositionReplay P ld s moves).1 = ld) := by
  intro ld k lm
  refine ⟨?_, ?_, ?_⟩
  · intro h
    unfold Learn.LearningData.add_new_learning
    rcases h with h | h | h <;> simp [Learn.LearningData.is_enabled, h]
  · intro hm hp hr
    unfold Learn.LearningData.add_new_learning
    have hg : (ld.is_enabled && !ld.isPaused && !ld.isReadOnly) = true := by
      simp [Learn.LearningData.is_enabled, hm, hp, hr]
    rw [if_pos hg]
    exact insertOrUpdate_found k lm ld.store
  · intro σ P s moves h
    exact replay_readonly P ld s moves h

/-- Witness for C2: a paused store swallows a write; an enabled, unpaused,
writable store makes the written move probeable; a readonly store survives a
whole replay unchanged. -/
theorem claim_C2_write_gates_witness :
    (Learn.LearningData.add_new_learning ⟨true, false, Learn.LearningMode.Standard, []⟩ 9
        ⟨0, Learn.VALUE_NONE, 7, 100⟩ = ⟨true, false, Learn.LearningMode.Standard, []⟩)
  ∧ (∃ lm', (Learn.LearningData.add_new_learning ⟨false, false, Learn.LearningMode.Standard, []⟩
        9 ⟨0, Learn.VALUE_NONE, 7, 100⟩).probe_move 9 7 = some lm' ∧ lm'.move = 7)
  ∧ ((Engine.setPositionReplay replayDemoModel ⟨false, true, Learn.LearningMode.Standard, []⟩ 0
        ["a", "a"]).1 = ⟨false, true, Learn.LearningMode.Standard, []⟩) :=
  ⟨(claim_C2_write_gates ⟨true, false, Learn.LearningMode.Standard, []⟩ 9
      ⟨0, Learn.VALUE_NONE, 7, 100⟩).1 (Or.inr (Or.inl rfl)),
   (claim_C2_write_gates ⟨false, false, Learn.LearningMode.Standard, []⟩ 9
      ⟨0, Learn.VALUE_NONE, 7, 100⟩).2.1 (by decide) rfl rfl,
   (claim_C2_write_gates ⟨false, true, Learn.LearningMode.Standard, []⟩ 9
      ⟨0, Learn.VALUE_NONE, 7, 100⟩).2.2 Nat replayDemoModel 0 ["a", "a"] rfl⟩

/-- C6: when `Engine::set_position` replays an external move list in `Self`
mode, no replayed move reaches the learning store's write path, even though
learning is enabled and not paused; in `Standard` mode (enabled, not paused)
every successfully decoded replayed move is recorded, in order. -/
theorem claim_C6_self_mode_replay :
    ∀ (σ : Type) (P : Engine.PosModel σ) (ld : Learn.LearningData) (s : σ)
      (moves : List String),
      (ld.learningMode = Learn.LearningMode.Self →
        (Engine.setPositionReplay P ld s moves).2.2 = [])
    ∧ (ld.learningMode = Learn.LearningMode.Standard → ld.isPaused = false →
        ((Engine.setPositionReplay P ld s moves).2.2).map (fun c => c.2.move)
          = Engine.decodedMoves P s moves) :=
  fun _ P ld s moves =>
    ⟨fun h => replay_self P ld s moves h,
     fun hm hp => replay_standard P ld s moves hm hp⟩

/-- Witness for C6: a three-string list whose first two strings decode; `Self`
mode records nothing, `Standard` mode records exactly the two decoded moves. -/
theorem claim_C6_self_mode_replay_witness :
    ((Engine.setPositionReplay replayDemoModel ⟨false, false, Learn.LearningMode.Self, []⟩ 0
        ["a", "a", "b"]).2.2 = [])
  ∧ (((Engine.setPositionReplay replayDemoModel ⟨false, false, Learn.LearningMode.Standard, []⟩
        0 ["a", "a", "b"]).2.2).map (fun c => c.2.move)
      = Engine.decodedMoves replayDemoModel 0 ["a", "a", "b"])
  ∧ Engine.decodedMoves replayDemoModel 0 ["a", "a", "b"] = [3, 3] :=
  ⟨(claim_C6_self_mode_replay Nat replayDemoModel ⟨false, false, Learn.LearningMode.Self, []⟩ 0
      ["a", "a", "b"]).1 rfl,
   (claim_C6_self_mode_replay Nat replayDemoModel ⟨false, false, Learn.LearningMode.Standard, []⟩
      0 ["a", "a", "b"]).2 rfl rfl,
   by decide⟩

/-- C9: every replayed move that `Engine::set_position` passes to the learning
store carries `depth = 0`, `score = VALUE_NONE` and `performance = 100`; the
key is taken from the position before the move is made (one-step unfolding);
and replay stops at the first move string that fails to decode. -/
theorem claim_C9_replay_record_shape :
    (∀ (σ : Type) (P : Engine.PosModel σ) (ld : Learn.LearningData) (s : σ)
       (moves : List String),
       ∀ c ∈ (Engine.setPositionReplay P ld s moves).2.2,
         c.2.depth = 0 ∧ c.2.score = Learn.VALUE_NONE ∧ c.2.performance = 100)
  ∧ (∀ (σ : Type) (P : Engine.PosModel σ) (ld : Learn.LearningData) (s : σ)
       (mvStr : String) (rest : List String) (m : Experience.Move),
       P.decode s mvStr = some m →
       (ld.is_enabled && ld.learningMode != Learn.LearningMode.Self && !ld.isPaused) = true →
       Engine.setPositionReplay P ld s (mvStr :: rest)
         = ((Engine.setPositionReplay P
               (ld.add_new_learning (P.key s) ⟨0, Learn.VALUE_NONE, m, 100⟩)
               (P.doMove s m) rest).1,
            (Engine.setPositionReplay P
               (ld.add_new_learning (P.key s) ⟨0, Learn.VALUE_NONE, m, 100⟩)
               (P.doMove s m) rest).2.1,
            (P.key s, (⟨0, Learn.VALUE_NONE, m, 100⟩ : Learn.LearningMove))
              :: (Engine.setPositionReplay P
                    (ld.add_new_learning (P.key s) ⟨0, Learn.VALUE_NONE, m, 100⟩)
                    (P.doMove s m) rest).2.2))
  ∧ (∀ (σ : Type) (P : Engine.PosModel σ) (ld : Learn.LearningData) (s : σ)
       (mvStr : String) (rest : List String),
       P.decode s mvStr = none →
       Engine.setPositionReplay P ld s (mvStr :: rest) = (ld, s, [])) := by
  refine ⟨fun σ P ld s moves => replay_fields P ld s moves, ?_, ?_⟩
  · intro σ P ld s mvStr rest m hd hg
    simp only [Engine.setPositionReplay, hd, hg, if_true]
  · intro σ P ld s mvStr rest hd
    simp only [Engine.setPositionReplay, hd]

/-- Witness for C9: a one-move replay in `Standard` mode produces exactly one
record of the fixed shape, keyed by the starting position, and a failing first
string stops the replay with nothing recorded. -/
theorem claim_C9_replay_record_shape_witness :
    (((0 : Nat), (⟨0, Learn.VALUE_NONE, 3, 100⟩ : Learn.LearningMove)).2.depth = 0
      ∧ ((0 : Nat), (⟨0, Learn.VALUE_NONE, 3, 100⟩ : Learn.LearningMove)).2.score
          = Learn.VALUE_NONE
      ∧ ((0 : Nat), (⟨0, Learn.VALUE_NONE, 3, 100⟩ : Learn.LearningMove)).2.performance = 100)
  ∧ (Engine.setPositionReplay replayDemoModel ⟨false, false, Learn.LearningMode.Standard, []⟩ 0
        ["a"]
      = ((Engine.setPositionReplay replayDemoModel
            (Learn.LearningData.add_new_learning ⟨false, false, Learn.LearningMode.Standard, []⟩
              0 ⟨0, Learn.VALUE_NONE, 3, 100⟩) 1 []).1,
         (Engine.setPositionReplay replayDemoModel
            (Learn.LearningData.add_new_learning ⟨false, false, Learn.LearningMode.Standard, []⟩
              0 ⟨0, Learn.VALUE_NONE, 3, 100⟩) 1 []).2.1,
         ((0 : Nat), (⟨0, Learn.VALUE_NONE, 3, 100⟩ : Learn.LearningMove))
           :: (Engine.setPositionReplay replayDemoModel
                 (Learn.LearningData.add_new_learning
                   ⟨false, false, Learn.LearningMode.Standard, []⟩ 0
                   ⟨0, Learn.VALUE_NONE, 3, 100⟩) 1 []).2.2))
  ∧ (Engine.setPositionReplay replayDemoModel ⟨false, false, Learn.LearningMode.Standard, []⟩ 0
        ["b"]
      = (⟨false, false, Learn.LearningMode.Standard, []⟩, 0, [])) :=
  ⟨claim_C9_replay_record_shape.1 Nat replayDemoModel
      ⟨false, false, Learn.LearningMode.Standard, []⟩ 0 ["a"]
      ((0 : Nat), (⟨0, Learn.VALUE_NONE, 3, 100⟩ : Learn.LearningMove)) (by decide),
   claim_C9_replay_record_shape.2.1 Nat replayDemoModel
      ⟨false, false, Learn.LearningMode.Standard, []⟩ 0 "a" [] 3 rfl (by decide),
   claim_C9_replay_record_shape.2.2 Nat replayDemoModel
      ⟨false, false, Learn.LearningMode.Standard, []⟩ 0 "b" [] rfl⟩
